/-
  Verification of the EasyMyTicket email-ingestion agent and smart assignment
  engine, as a shallow embedding of:
    backend/src/agents/email_polling_agent.py
    backend/src/services/email_listener_service.py  (parse_email)
    src/agents/smart_ticket_assignment.py
  Database tables (email_checkpoints, ticket_communications, new_tickets,
  technician_data) are modelled as explicit in-memory state; external
  collaborators (IMAP, user validation, LLM agents, ticket insertion) are
  modelled as an environment record.  Python float arithmetic in the scoring
  heuristics is modelled as exact rational arithmetic with the final `int(...)`
  conversion rendered as integer (floor) division, and Python's `str.lower`,
  `str.strip`, `str.split`, substring test and slicing are rendered by the
  executable character-list definitions below.
-/
import Mathlib

namespace EasyMyTicket

/-! ## Definitions: shallow embedding of the source code -/

/-- Python substring test `needle in hay` on character lists: true iff `needle`
occurs contiguously inside `hay` (the empty needle occurs in every string). -/
def containsSub : List Char → List Char → Bool
  | [], needle => needle.isEmpty
  | c :: rest, needle => needle.isPrefixOf (c :: rest) || containsSub rest needle

/-- Python `needle in hay` on strings. -/
def strContains (hay needle : String) : Bool :=
  containsSub hay.data needle.data

/-- Python `str.lower()` (character-wise lowercasing). -/
def lowerStr (s : String) : String :=
  ⟨s.data.map Char.toLower⟩

/-- Python `str.strip()`: remove leading and trailing whitespace. -/
def trimStr (s : String) : String :=
  ⟨((s.data.dropWhile Char.isWhitespace).reverse.dropWhile Char.isWhitespace).reverse⟩

/-- Python `s[:n]`. -/
def takeStr (s : String) (n : Nat) : String :=
  ⟨s.data.take n⟩

/-- Splitting into maximal runs of non-separator characters (`p` recognises
separators); empty pieces are dropped, like Python `str.split()` with no
argument or `re.findall` of non-separator runs. -/
def fieldsBy (p : Char → Bool) : List Char → List Char → List String
  | [], acc => if acc.isEmpty then [] else [⟨acc.reverse⟩]
  | c :: rest, acc =>
    if p c then
      (if acc.isEmpty then [] else [⟨acc.reverse⟩]) ++ fieldsBy p rest []
    else
      fieldsBy p rest (c :: acc)

/-- Python `str.split()` with no argument: split on whitespace runs. -/
def splitWS (s : String) : List String :=
  fieldsBy Char.isWhitespace s.data []

/-- Python `','.join(l)`. -/
def joinWith (sep : String) : List String → String
  | [] => ""
  | [x] => x
  | x :: rest => x ++ sep ++ joinWith sep rest

/-- Angle-bracket stripping used by `EmailListenerService.parse_email`:
`s[1:-1]` when the value both starts with `<` and ends with `>`. -/
def stripAngle (s : String) : String :=
  if s.data.head? = some '<' ∧ s.data.getLast? = some '>' then
    ⟨(s.data.drop 1).dropLast⟩
  else s

/-- Raw thread-related headers of an inbound mail message. -/
structure RawEmail where
  message_id_header : String
  in_reply_to_header : String
  references_header : String
deriving DecidableEq

/-- Thread-related fields of the dictionary returned by `parse_email`. -/
structure ParsedEmail where
  message_id : String
  in_reply_to : String
  reference_chain : List String
  thread_id : String
  is_reply : Bool
deriving DecidableEq

/-- Parsing of the `References` header: split on whitespace/newline runs,
strip each entry and its angle brackets, keep non-empty entries in order. -/
def parse_references (header : String) : List String :=
  ((splitWS (trimStr header)).map (fun r => stripAngle (trimStr r))).filter
    (fun r => r != "")

/-- Thread-header part of `EmailListenerService.parse_email`. -/
def parse_email (r : RawEmail) : ParsedEmail :=
  let message_id := stripAngle (trimStr r.message_id_header)
  let in_reply_to := stripAngle (trimStr r.in_reply_to_header)
  let refs := parse_references r.references_header
  { message_id := message_id
    in_reply_to := in_reply_to
    reference_chain := refs
    thread_id := refs.headD message_id
    is_reply := in_reply_to != "" || !refs.isEmpty }

/-- A row of the `email_checkpoints` table. -/
structure Checkpoint where
  message_id : String
  thread_id : String
  sender_email : String
  subject : String
  ticket_number : Option String
  email_type : String
  references_ids : Option String
  in_reply_to : Option String
  action_taken : String
  processed_at : Nat
deriving DecidableEq

/-- The fields of the parsed email dictionary that `process_single_email`
consumes. -/
structure EmailData where
  message_id : String
  thread_id : String
  in_reply_to : String
  references : List String
  is_reply : Bool
  sender_email : String
  subject : String
  description : String
deriving DecidableEq

/-- Database/statistics state owned by the agent: the `email_checkpoints`
table, the set of created ticket numbers (`new_tickets`), the
`ticket_communications` rows, the agent statistics counters, and a logical
clock supplying `processed_at` timestamps. -/
structure AgentState where
  checkpoints : List Checkpoint
  tickets : List String
  communications : List (String × String)
  duplicates_skipped : Nat
  tickets_created : Nat
  tickets_updated : Nat
  errors : Nat
  now : Nat
deriving DecidableEq

/-- External collaborators of `process_single_email`: sender validation and
organization lookup (`EmailListenerService`), the generated ticket number and
whether the ticket-construction pipeline / the communications insert succeed. -/
structure Env where
  validateSender : String → Option String
  getUserOrganization : String → Option String
  newTicketNumber : String
  createTicketOk : Bool
  addEmailOk : Bool

/-- `EmailPollingAgent.is_duplicate`: a falsy `message_id` is never a
duplicate; otherwise look the id up in `email_checkpoints`. -/
def is_duplicate (st : AgentState) (message_id : String) : Bool :=
  if message_id = "" then false
  else st.checkpoints.any (fun cp => cp.message_id == message_id)

/-- The row produced by `ORDER BY processed_at ASC LIMIT 1` over a result set
(first-listed row wins ties, matching a stable ordering). -/
def earliest : List Checkpoint → Option Checkpoint
  | [] => none
  | cp :: rest =>
    match earliest rest with
    | none => some cp
    | some b => if b.processed_at < cp.processed_at then some b else some cp

/-- `EmailPollingAgent.get_thread_ticket`: earliest-processed checkpoint of the
thread whose `ticket_number` is non-null; the Python code additionally treats
a falsy (empty) stored ticket number as absent. -/
def get_thread_ticket (st : AgentState) (thread_id : String) : Option String :=
  if thread_id = "" then none
  else
    match earliest (st.checkpoints.filter
        (fun cp => cp.thread_id == thread_id && cp.ticket_number.isSome)) with
    | none => none
    | some cp =>
      match cp.ticket_number with
      | some t => if t = "" then none else some t
      | none => none

/-- The row inserted by `EmailPollingAgent.create_checkpoint`. -/
def mkCheckpoint (st : AgentState) (e : EmailData) (ticket_number : Option String)
    (action_taken : String) : Checkpoint :=
  let references_str := joinWith "," e.references
  { message_id := e.message_id
    thread_id := e.thread_id
    sender_email := e.sender_email
    subject := if e.subject = "" then "" else takeStr e.subject 500
    ticket_number := ticket_number
    email_type := if e.is_reply then "reply" else "new"
    references_ids := if references_str = "" then none else some (takeStr references_str 5000)
    in_reply_to := if e.in_reply_to = "" then none else some (takeStr e.in_reply_to 500)
    action_taken := action_taken
    processed_at := st.now }

/-- `EmailPollingAgent.create_checkpoint`: insert with
`ON CONFLICT (message_id) DO NOTHING`. -/
def create_checkpoint (st : AgentState) (e : EmailData) (ticket_number : Option String)
    (action_taken : String) : AgentState :=
  if st.checkpoints.any (fun cp => cp.message_id == e.message_id) then st
  else
    { st with
      checkpoints := st.checkpoints ++ [mkCheckpoint st e ticket_number action_taken]
      now := st.now + 1 }

/-- The `message_text` built by `EmailPollingAgent.add_email_to_ticket`. -/
def emailMessageText (e : EmailData) : String :=
  "[Email Reply]\nSubject: " ++ (if e.subject = "" then "No Subject" else e.subject)
    ++ "\n\n" ++ e.description

/-- `EmailPollingAgent.process_single_email`: duplicate check, sender and
organization validation, thread folding for replies, and ticket creation.
Returns the `(action_taken, ticket_number)` pair together with the new state. -/
def process_single_email (env : Env) (st : AgentState) (e : EmailData) :
    (String × Option String) × AgentState :=
  if is_duplicate st e.message_id then
    (("skipped", none), { st with duplicates_skipped := st.duplicates_skipped + 1 })
  else
    match env.validateSender e.sender_email with
    | none => (("invalid", none), create_checkpoint st e none "invalid_sender")
    | some user_id =>
      match env.getUserOrganization user_id with
      | none => (("invalid", none), create_checkpoint st e none "no_organization")
      | some _ =>
        match (if e.is_reply then get_thread_ticket st e.thread_id else none) with
        | some existing_ticket =>
          if env.addEmailOk then
            let st1 := { st with
              communications :=
                st.communications ++ [(existing_ticket, emailMessageText e)] }
            let st2 := create_checkpoint st1 e (some existing_ticket) "ticket_updated"
            (("ticket_updated", some existing_ticket),
              { st2 with tickets_updated := st2.tickets_updated + 1 })
          else
            (("error", none), { st with errors := st.errors + 1 })
        | none =>
          if env.createTicketOk then
            let st1 := { st with tickets := st.tickets ++ [env.newTicketNumber] }
            let st2 := create_checkpoint st1 e (some env.newTicketNumber) "ticket_created"
            (("ticket_created", some env.newTicketNumber),
              { st2 with tickets_created := st2.tickets_created + 1 })
          else
            let st2 := create_checkpoint st e none "creation_failed"
            (("error", none), { st2 with errors := st2.errors + 1 })

/-- Number of checkpoint rows recorded for a given message id. -/
def cpCount (st : AgentState) (m : String) : Nat :=
  (st.checkpoints.filter (fun cp => cp.message_id == m)).length

/-- Environment in which every external collaborator succeeds. -/
def env0 : Env :=
  { validateSender := fun _ => some "u1"
    getUserOrganization := fun _ => some "0001"
    newTicketNumber := "T1"
    createTicketOk := true
    addEmailOk := true }

/-- Environment in which ticket insertion fails. -/
def envCreateFail : Env :=
  { env0 with createTicketOk := false }

/-- Environment in which the communications insert fails. -/
def envAddFail : Env :=
  { env0 with addEmailOk := false }

/-- Empty initial agent state. -/
def st0 : AgentState := ⟨[], [], [], 0, 0, 0, 0, 0⟩

/-- A fresh (non-reply) inbound message. -/
def email0 : EmailData :=
  { message_id := "m1", thread_id := "m1", in_reply_to := "", references := []
    is_reply := false, sender_email := "a@b.c", subject := "s", description := "d" }

/-- A checkpoint recording that thread `th` produced ticket `T0`. -/
def cp0 : Checkpoint :=
  { message_id := "m0", thread_id := "th", sender_email := "a@b.c", subject := "s"
    ticket_number := some "T0", email_type := "new", references_ids := none
    in_reply_to := none, action_taken := "ticket_created", processed_at := 0 }

/-- State holding `cp0` and its ticket. -/
def st1cp : AgentState := ⟨[cp0], ["T0"], [], 0, 0, 0, 0, 1⟩

/-- A reply on thread `th`. -/
def reply0 : EmailData :=
  { message_id := "m2", thread_id := "th", in_reply_to := "m0", references := ["m0"]
    is_reply := true, sender_email := "a@b.c", subject := "Re: s", description := "r" }

/-- A row of the `technician_data` table as read by the assignment engine
(`current_workload` is nullable; `tech['current_workload'] or 0`). -/
structure Tech where
  tech_id : String
  tech_name : String
  skills : String
  current_workload : Option Nat
  status : String
deriving DecidableEq

/-- An entry of the scored candidate list built by `_score_technicians` and
`_rerank_technicians`. -/
structure ScoredEntry where
  tech_id : String
  tech_name : String
  score : Nat
  workload : Nat
deriving DecidableEq

/-- The scored-candidate record built for a technician. -/
def mkScored (t : Tech) (score : Nat) : ScoredEntry :=
  { tech_id := t.tech_id
    tech_name := t.tech_name
    score := score
    workload := t.current_workload.getD 0 }

/-- Exact-match test of `_match_skills`: the lowercased keyword occurs as a
substring of the lowercased skill text. -/
def keywordExact (skillsLower : String) (kw : String) : Bool :=
  strContains skillsLower (lowerStr kw)

/-- Near-match test of `_match_skills`: some whitespace-separated word of the
lowercased keyword phrase of length > 3 occurs in the lowercased skill text. -/
def keywordNear (skillsLower : String) (kw : String) : Bool :=
  (splitWS (lowerStr kw)).any (fun w => decide (3 < w.length) && strContains skillsLower w)

/-- `SmartAssignmentAgent._match_skills`: guard against an empty keyword list
or empty skill text, count exact and near matches (near credit only when the
exact match failed, at most once per keyword), and return
`int(matches/total*70 + nears/total*30)`, modelled as exact arithmetic with a
final integer truncation, i.e. `(matches*70 + nears*30) / total` in `Nat`. -/
def match_skills (required_skills : List String) (tech_skills : String) : Nat :=
  if required_skills = [] ∨ tech_skills = "" then 0
  else
    let sl := lowerStr tech_skills
    let exact_count := (required_skills.filter (fun k => keywordExact sl k)).length
    let near_count := (required_skills.filter
        (fun k => !keywordExact sl k && keywordNear sl k)).length
    (exact_count * 70 + near_count * 30) / required_skills.length

/-- `SmartAssignmentAgent._score_technicians`: keep candidates whose
`_match_skills` score is strictly above 30. -/
def score_technicians : List Tech → List String → List ScoredEntry
  | [], _ => []
  | t :: rest, required_skills =>
    let score := match_skills required_skills t.skills
    if 30 < score then
      mkScored t score :: score_technicians rest required_skills
    else
      score_technicians rest required_skills

/-- The stopword list of `_semantic_match_score`. -/
def common_words : List String :=
  ["and", "the", "for", "with", "this", "that", "from", "have", "has"]

/-- Python word characters (ASCII reading): alphanumeric or underscore. -/
def isWordChar (c : Char) : Bool := c.isAlphanum || c = '_'

/-- Python regex word tokenization: maximal runs of word characters. -/
def findWords (s : String) : List String :=
  fieldsBy (fun c => !isWordChar c) s.data []

/-- Word set of `_semantic_match_score`: distinct word tokens minus the
stopword list (a duplicate-free list standing for the Python set). -/
def wordSet (s : String) : List String :=
  (findWords s).dedup.filter (fun w => !common_words.contains w)

/-- `SmartAssignmentAgent._semantic_match_score`: flat 20 for empty skill
text; otherwise `int(overlap/|skill words|*60)` (floor division) when the
stopword-filtered overlap is positive, else 20; plus a flat 10 per required
keyword occurring in the skill text; clamped to 100. -/
def semantic_match_score (ticket_text tech_skills : String)
    (required_skills : List String) : Nat :=
  if tech_skills = "" then 20
  else
    let skills_lower := lowerStr tech_skills
    let ticket_lower := lowerStr ticket_text
    let skill_words := wordSet skills_lower
    let ticket_words := wordSet ticket_lower
    let overlap := (skill_words.filter (fun w => ticket_words.contains w)).length
    let total_skill_words := if skill_words = [] then 1 else skill_words.length
    let base_score := if 0 < overlap then (overlap * 60) / total_skill_words else 20
    let boost := 10 * (required_skills.filter
        (fun k => strContains skills_lower (lowerStr k))).length
    min (base_score + boost) 100

/-- The sort key `(-score, workload)` of `assign_ticket` and
`_rerank_technicians`, as a non-strict lexicographic order. -/
def scoreOrder (a b : ScoredEntry) : Prop :=
  b.score < a.score ∨ (a.score = b.score ∧ a.workload ≤ b.workload)

instance : DecidableRel scoreOrder := fun a b =>
  decidable_of_iff (b.score < a.score ∨ (a.score = b.score ∧ a.workload ≤ b.workload)) Iff.rfl

instance : IsTotal ScoredEntry scoreOrder :=
  ⟨by intro a b; unfold scoreOrder; omega⟩

instance : IsTrans ScoredEntry scoreOrder :=
  ⟨by intro a b c hab hbc; unfold scoreOrder at *; omega⟩

/-- Python's stable `list.sort(key=lambda x: (-x['score'], x['workload']))`. -/
def sortScored (l : List ScoredEntry) : List ScoredEntry :=
  List.insertionSort scoreOrder l

/-- `SmartAssignmentAgent._rerank_technicians`: rescore every candidate with
the lexical-overlap heuristic, sort by `(-score, workload)` and keep the top
five. -/
def rerank_technicians (technicians : List Tech) (ticket_text : String)
    (required_skills : List String) : List ScoredEntry :=
  (sortScored (technicians.map
      (fun t => mkScored t (semantic_match_score ticket_text t.skills required_skills)))).take 5

/-- The availability pool: `status IN ('available', 'wfh')`. -/
def availableStatus (s : String) : Bool := s == "available" || s == "wfh"

/-- The pre-sort `ORDER BY current_workload ASC` of
`_get_available_technicians`, as a non-strict order on the null-coalesced
workload. -/
def workloadOrder (a b : Tech) : Prop :=
  a.current_workload.getD 0 ≤ b.current_workload.getD 0

instance : DecidableRel workloadOrder := fun a b =>
  decidable_of_iff (a.current_workload.getD 0 ≤ b.current_workload.getD 0) Iff.rfl

instance : IsTotal Tech workloadOrder :=
  ⟨by intro a b; unfold workloadOrder; omega⟩

instance : IsTrans Tech workloadOrder :=
  ⟨by intro a b c hab hbc; unfold workloadOrder at *; omega⟩

/-- `SmartAssignmentAgent._get_available_technicians`. -/
def get_available_technicians (technicians : List Tech) : List Tech :=
  List.insertionSort workloadOrder (technicians.filter (fun t => availableStatus t.status))

/-- `SmartAssignmentAgent.assign_ticket` (pure selection part, given the
technician table, the ticket text `title + ' ' + description` and the derived
required skills): primary scoring, fallback reranking when nobody passes the
threshold, sort by `(-score, workload)`, pick the first. -/
def assign_ticket (technicians : List Tech) (ticket_text : String)
    (required_skills : List String) : Option String :=
  let available_techs := get_available_technicians technicians
  if available_techs = [] then none
  else
    let scored0 := score_technicians available_techs required_skills
    let scored_techs :=
      if scored0 = [] then rerank_technicians available_techs ticket_text required_skills
      else scored0
    if scored_techs = [] then none
    else
      match sortScored scored_techs with
      | [] => none
      | best :: _ => some best.tech_id

/-- Per-keyword rational contribution as claim C5 words it. -/
def claimedContribution (required_count : Nat) (skillsLower : String) (kw : String) : ℚ :=
  if keywordExact skillsLower kw then 70 / required_count
  else if keywordNear skillsLower kw then 30 / required_count
  else 0

/-- Responder A of the spec scenario. -/
def techA : Tech :=
  { tech_id := "A", tech_name := "A", skills := "network, vpn"
    current_workload := some 2, status := "available" }

/-- Responder B of the spec scenario. -/
def techB : Tech :=
  { tech_id := "B", tech_name := "B", skills := "network"
    current_workload := some 0, status := "available" }

/-- Fallback score as the amended claim C7 words it: base is the
integer-truncated `(overlap * 60) / |skill word set|` when the
stopword-filtered overlap is nonzero and 20 otherwise; boost is a flat 10 per
required keyword occurring anywhere in the skill text; the total is clamped
to 100. -/
def fallback_score_claimed (ticket_text tech_skills : String)
    (required_skills : List String) : Nat :=
  let skills_lower := lowerStr tech_skills
  let skill_words := wordSet skills_lower
  let ticket_words := wordSet (lowerStr ticket_text)
  let overlap := (skill_words.filter (fun w => ticket_words.contains w)).length
  let base := if 0 < overlap then (overlap * 60) / skill_words.length else 20
  let boost := 10 * (required_skills.filter
      (fun k => strContains skills_lower (lowerStr k))).length
  min (base + boost) 100

/-! ## Theorems -/

example :
    parse_email ⟨" <m1@x> ", "<m0@x>", "<r0@x>\n <r1@x>"⟩ =
      ⟨"m1@x", "m0@x", ["r0@x", "r1@x"], "r0@x", true⟩ := by decide

example :
    parse_email ⟨"<m1@x>", "", ""⟩ = ⟨"m1@x", "", [], "m1@x", false⟩ := by decide

/-- Claim C3: `parse_email` strips angle-bracket delimiters from `Message-ID`,
`In-Reply-To` and each whitespace/newline-separated entry of `References`;
`reference_chain` is the parsed references in header order; `thread_id` is the
first entry of `reference_chain` when non-empty and the message's own
`message_id` otherwise; `is_reply` is true iff `in_reply_to` is non-empty or
`reference_chain` is non-empty. -/
theorem parse_email_thread_resolution (r : RawEmail) :
    (parse_email r).message_id = stripAngle (trimStr r.message_id_header) ∧
    (parse_email r).in_reply_to = stripAngle (trimStr r.in_reply_to_header) ∧
    (parse_email r).reference_chain
      = ((splitWS (trimStr r.references_header)).map
          (fun s => stripAngle (trimStr s))).filter (fun s => s != "") ∧
    (parse_email r).thread_id
      = (parse_email r).reference_chain.headD (parse_email r).message_id ∧
    ((parse_email r).is_reply = true ↔
      ((parse_email r).in_reply_to ≠ "" ∨ (parse_email r).reference_chain ≠ [])) := by
  refine ⟨rfl, rfl, rfl, rfl, ?_⟩
  simp [parse_email, List.isEmpty_iff]

theorem create_checkpoint_tickets (st : AgentState) (e : EmailData)
    (tk : Option String) (ac : String) :
    (create_checkpoint st e tk ac).tickets = st.tickets := by
  unfold create_checkpoint; split <;> rfl

theorem create_checkpoint_communications (st : AgentState) (e : EmailData)
    (tk : Option String) (ac : String) :
    (create_checkpoint st e tk ac).communications = st.communications := by
  unfold create_checkpoint; split <;> rfl

theorem process_duplicate (env : Env) (st : AgentState) (e : EmailData)
    (h : is_duplicate st e.message_id = true) :
    process_single_email env st e
      = (("skipped", none), { st with duplicates_skipped := st.duplicates_skipped + 1 }) := by
  simp [process_single_email, h]

theorem any_eq_false_of_not_dup {st : AgentState} {m : String}
    (hd : is_duplicate st m = false) (hm : m ≠ "") :
    st.checkpoints.any (fun cp => cp.message_id == m) = false := by
  simpa [is_duplicate, hm] using hd

/-- Every non-duplicate outcome other than a failing communications insert
appends exactly one checkpoint row, carrying the message's own id. -/
theorem process_checkpoints_shape (env : Env) (st : AgentState) (e : EmailData)
    (hd : is_duplicate st e.message_id = false)
    (hm : e.message_id ≠ "")
    (ha : env.addEmailOk = true) :
    ∃ tk ac, (process_single_email env st e).2.checkpoints
      = st.checkpoints ++ [mkCheckpoint st e tk ac] := by
  have hany := any_eq_false_of_not_dup hd hm
  cases hv : env.validateSender e.sender_email with
  | none =>
    exact ⟨none, "invalid_sender", by simp [process_single_email, hd, hv, create_checkpoint, hany]⟩
  | some u =>
    cases ho : env.getUserOrganization u with
    | none =>
      exact ⟨none, "no_organization",
        by simp [process_single_email, hd, hv, ho, create_checkpoint, hany]⟩
    | some org =>
      cases ht : (if e.is_reply then get_thread_ticket st e.thread_id else none) with
      | some t =>
        exact ⟨some t, "ticket_updated",
          by simp [process_single_email, hd, hv, ho, ht, ha, create_checkpoint, hany,
            mkCheckpoint]⟩
      | none =>
        cases hc : env.createTicketOk with
        | true =>
          exact ⟨some env.newTicketNumber, "ticket_created",
            by simp [process_single_email, hd, hv, ho, ht, hc, create_checkpoint, hany,
              mkCheckpoint]⟩
        | false =>
          exact ⟨none, "creation_failed",
            by simp [process_single_email, hd, hv, ho, ht, hc, create_checkpoint, hany]⟩

/-- A run of `process_single_email` creates at most one ticket. -/
theorem process_tickets_shape (env : Env) (st : AgentState) (e : EmailData) :
    (process_single_email env st e).2.tickets = st.tickets ∨
    (process_single_email env st e).2.tickets = st.tickets ++ [env.newTicketNumber] := by
  by_cases hd : is_duplicate st e.message_id = true
  · left; simp [process_duplicate env st e hd]
  · rw [Bool.not_eq_true] at hd
    cases hv : env.validateSender e.sender_email with
    | none => left; simp [process_single_email, hd, hv, create_checkpoint]; split <;> simp
    | some u =>
      cases ho : env.getUserOrganization u with
      | none => left; simp [process_single_email, hd, hv, ho, create_checkpoint]; split <;> simp
      | some org =>
        cases ht : (if e.is_reply then get_thread_ticket st e.thread_id else none) with
        | some t =>
          left
          cases ha : env.addEmailOk with
          | true => simp [process_single_email, hd, hv, ho, ht, ha, create_checkpoint]
                    split <;> simp
          | false => simp [process_single_email, hd, hv, ho, ht, ha]
        | none =>
          cases hc : env.createTicketOk with
          | true =>
            right
            simp [process_single_email, hd, hv, ho, ht, hc, create_checkpoint]
            split <;> simp
          | false =>
            left
            simp [process_single_email, hd, hv, ho, ht, hc, create_checkpoint]
            split <;> simp

/-- Claim C1: processing a message whose `message_id` already has a checkpoint
row yields the skipped outcome with no side effect except the
`duplicates_skipped` counter (so no ticket, no checkpoint, errors unchanged);
consequently submitting the same `message_id` twice leaves exactly one
checkpoint row for it and creates at most one ticket, the second submission
being skipped. -/
theorem duplicate_message_idempotency (env : Env) (st : AgentState) (e e2 : EmailData)
    (hm : e.message_id ≠ "") (hm2 : e2.message_id = e.message_id)
    (ha : env.addEmailOk = true) :
    ((∃ cp ∈ st.checkpoints, cp.message_id = e.message_id) →
      process_single_email env st e
        = (("skipped", none), { st with duplicates_skipped := st.duplicates_skipped + 1 })) ∧
    ((∀ cp ∈ st.checkpoints, cp.message_id ≠ e.message_id) →
      (process_single_email env ((process_single_email env st e).2) e2).1
          = ("skipped", none) ∧
      cpCount (process_single_email env ((process_single_email env st e).2) e2).2
          e.message_id = 1 ∧
      (process_single_email env ((process_single_email env st e).2) e2).2.tickets.length
          ≤ st.tickets.length + 1) := by
  constructor
  · intro hex
    apply process_duplicate
    rcases hex with ⟨cp, hcp, hcpm⟩
    simp only [is_duplicate, hm, if_false, List.any_eq_true]
    exact ⟨cp, hcp, by simp [hcpm]⟩
  · intro hnone
    have hd : is_duplicate st e.message_id = false := by
      simp only [is_duplicate, hm, if_false, List.any_eq_false]
      intro cp hcp
      simp [hnone cp hcp]
    obtain ⟨tk, ac, hshape⟩ := process_checkpoints_shape env st e hd hm ha
    set st1 := (process_single_email env st e).2 with hst1
    have hdup1 : is_duplicate st1 e2.message_id = true := by
      rw [hm2]
      simp only [is_duplicate, hm, if_false, List.any_eq_true]
      exact ⟨mkCheckpoint st e tk ac, by simp [hshape], by simp [mkCheckpoint]⟩
    rw [process_duplicate env st1 e2 hdup1]
    refine ⟨rfl, ?_, ?_⟩
    · show cpCount st1 e.message_id = 1
      unfold cpCount
      rw [hshape, List.filter_append]
      have hnil : st.checkpoints.filter (fun cp => cp.message_id == e.message_id) = [] := by
        rw [List.filter_eq_nil_iff]
        intro cp hcp
        simp [hnone cp hcp]
      simp [hnil, mkCheckpoint]
    · show st1.tickets.length ≤ st.tickets.length + 1
      rcases process_tickets_shape env st e with h | h <;> rw [← hst1] at h <;> simp [h]

/-- Witness for claim C1 at a concrete input. -/
theorem duplicate_message_idempotency_witness :
    (process_single_email env0 ((process_single_email env0 st0 email0).2) email0).1
      = ("skipped", none) :=
  ((duplicate_message_idempotency env0 st0 email0 email0 (by decide) rfl rfl).2
    (by decide)).1

/-- Claim C2: for a non-duplicate reply from a valid sender with an
organization, with the communications insert and ticket construction
succeeding, the message is folded into an existing conversation iff
`get_thread_ticket` resolves its `thread_id` to a non-null ticket number
through an existing checkpoint: in that case the mail is appended as a ticket
communication and the outcome is `ticket_updated` with that existing ticket
and no new ticket; when the thread has no such checkpoint a new ticket is
created (`ticket_created`), not an update. -/
theorem reply_thread_folding (env : Env) (st : AgentState) (e : EmailData) (u org : String)
    (hd : is_duplicate st e.message_id = false)
    (hs : env.validateSender e.sender_email = some u)
    (ho : env.getUserOrganization u = some org)
    (ha : env.addEmailOk = true)
    (hc : env.createTicketOk = true)
    (hr : e.is_reply = true) :
    (∀ t, get_thread_ticket st e.thread_id = some t →
      (process_single_email env st e).1 = ("ticket_updated", some t) ∧
      (process_single_email env st e).2.tickets = st.tickets ∧
      (process_single_email env st e).2.communications
        = st.communications ++ [(t, emailMessageText e)]) ∧
    (get_thread_ticket st e.thread_id = none →
      (process_single_email env st e).1 = ("ticket_created", some env.newTicketNumber) ∧
      (process_single_email env st e).2.tickets = st.tickets ++ [env.newTicketNumber]) := by
  constructor
  · intro t ht
    have hti : (if e.is_reply then get_thread_ticket st e.thread_id else none) = some t := by
      rw [hr]; simpa using ht
    refine ⟨?_, ?_, ?_⟩ <;>
      simp [process_single_email, hd, hs, ho, hti, ha, create_checkpoint_tickets,
        create_checkpoint_communications]
  · intro ht
    have hti : (if e.is_reply then get_thread_ticket st e.thread_id else none) = none := by
      rw [hr]; simpa using ht
    constructor <;>
      simp [process_single_email, hd, hs, ho, hti, hc, create_checkpoint_tickets]

/-- Witness for claim C2 at a concrete input. -/
theorem reply_thread_folding_witness :
    (process_single_email env0 st1cp reply0).1 = ("ticket_updated", some "T0") :=
  ((reply_thread_folding env0 st1cp reply0 "u1" "0001" (by decide) rfl rfl rfl rfl rfl).1
    "T0" (by decide)).1

/-- Claim C10: when a reply resolves to an existing ticket but the
communications insert fails, the outcome is the error pair, the errors counter
is incremented, and no checkpoint (and nothing else) is written, so the
message is still not a duplicate and will be re-attempted on a later cycle. -/
theorem reply_append_failure_retry (env : Env) (st : AgentState) (e : EmailData)
    (u org t : String)
    (hd : is_duplicate st e.message_id = false)
    (hs : env.validateSender e.sender_email = some u)
    (ho : env.getUserOrganization u = some org)
    (hr : e.is_reply = true)
    (ht : get_thread_ticket st e.thread_id = some t)
    (ha : env.addEmailOk = false) :
    (process_single_email env st e).1 = ("error", none) ∧
    (process_single_email env st e).2 = { st with errors := st.errors + 1 } ∧
    is_duplicate (process_single_email env st e).2 e.message_id = false := by
  have hti : (if e.is_reply then get_thread_ticket st e.thread_id else none) = some t := by
    rw [hr]; simpa using ht
  have h2 : (process_single_email env st e).2 = { st with errors := st.errors + 1 } := by
    simp [process_single_email, hd, hs, ho, hti, ha]
  refine ⟨?_, h2, ?_⟩
  · simp [process_single_email, hd, hs, ho, hti, ha]
  · rw [h2]
    simpa [is_duplicate] using hd

/-- Witness for claim C10 at a concrete input. -/
theorem reply_append_failure_retry_witness :
    (process_single_email envAddFail st1cp reply0).1 = ("error", none) :=
  (reply_append_failure_retry envAddFail st1cp reply0 "u1" "0001" "T0" (by decide) rfl rfl rfl
    (by decide) rfl).1

/-- Counterexample to claim C4: with ticket construction failing on a fresh
valid message, a checkpoint row for the message IS written (action
`creation_failed`), and a later attempt at the same message is skipped as a
duplicate instead of being re-attempted. -/
theorem creation_failed_checkpoint_counterexample :
    (process_single_email envCreateFail st0 email0).1 = ("error", none) ∧
    (process_single_email envCreateFail st0 email0).2.checkpoints.any
        (fun cp => cp.message_id == "m1" && cp.action_taken == "creation_failed") = true ∧
    is_duplicate (process_single_email envCreateFail st0 email0).2 "m1" = true ∧
    (process_single_email envCreateFail
        ((process_single_email envCreateFail st0 email0).2) email0).1
      = ("skipped", none) := by
  refine ⟨by decide, by decide, by decide, by decide⟩

/-- Claim C4 (amended): when ticket construction raises an unrecoverable
error, a checkpoint with null `ticket_number` and action `creation_failed` IS
written for the message, the outcome is the error pair with the errors counter
incremented and no ticket created, and the message is from then on treated as
a duplicate (skipped, not re-attempted) even though it stays unread in the
mailbox. -/
theorem creation_failed_writes_checkpoint (env : Env) (st : AgentState) (e : EmailData)
    (u org : String)
    (hd : is_duplicate st e.message_id = false)
    (hm : e.message_id ≠ "")
    (hs : env.validateSender e.sender_email = some u)
    (ho : env.getUserOrganization u = some org)
    (hpath : e.is_reply = false ∨ get_thread_ticket st e.thread_id = none)
    (hc : env.createTicketOk = false) :
    (process_single_email env st e).1 = ("error", none) ∧
    (process_single_email env st e).2.checkpoints
      = st.checkpoints ++ [mkCheckpoint st e none "creation_failed"] ∧
    (process_single_email env st e).2.errors = st.errors + 1 ∧
    (process_single_email env st e).2.tickets = st.tickets ∧
    is_duplicate (process_single_email env st e).2 e.message_id = true := by
  have hany := any_eq_false_of_not_dup hd hm
  have hti : (if e.is_reply then get_thread_ticket st e.thread_id else none) = none := by
    rcases hpath with h | h
    · rw [h]; simp
    · rw [h]; simp
  have hcps : (process_single_email env st e).2.checkpoints
      = st.checkpoints ++ [mkCheckpoint st e none "creation_failed"] := by
    simp [process_single_email, hd, hs, ho, hti, hc, create_checkpoint, hany]
  refine ⟨?_, hcps, ?_, ?_, ?_⟩
  · simp [process_single_email, hd, hs, ho, hti, hc]
  · simp [process_single_email, hd, hs, ho, hti, hc, create_checkpoint, hany]
  · simp [process_single_email, hd, hs, ho, hti, hc, create_checkpoint, hany]
  · simp only [is_duplicate, hm, if_false, List.any_eq_true, hcps]
    exact ⟨mkCheckpoint st e none "creation_failed", by simp, by simp [mkCheckpoint]⟩

/-- Witness for the amended claim C4 at a concrete input. -/
theorem creation_failed_writes_checkpoint_witness :
    (process_single_email envCreateFail st0 email0).2.errors = st0.errors + 1 :=
  (creation_failed_writes_checkpoint envCreateFail st0 email0 "u1" "0001" (by decide)
    (by decide) rfl rfl (Or.inl rfl) rfl).2.2.1

theorem earliest_cons (cp : Checkpoint) (rest : List Checkpoint) :
    earliest (cp :: rest) = match earliest rest with
      | none => some cp
      | some b => if b.processed_at < cp.processed_at then some b else some cp := rfl

theorem earliest_eq_none {l : List Checkpoint} : earliest l = none ↔ l = [] := by
  cases l with
  | nil => simp [earliest]
  | cons cp rest =>
    rw [earliest_cons]
    constructor
    · intro h
      exfalso
      cases hr : earliest rest with
      | none => rw [hr] at h; dsimp only at h; exact Option.noConfusion h
      | some b =>
        rw [hr] at h
        dsimp only at h
        split at h <;> exact Option.noConfusion h
    · intro h
      exact absurd h (by simp)

theorem earliest_mem {l : List Checkpoint} {b : Checkpoint} (h : earliest l = some b) :
    b ∈ l := by
  induction l generalizing b with
  | nil => exact Option.noConfusion h
  | cons cp rest ih =>
    rw [earliest_cons] at h
    cases hr : earliest rest with
    | none =>
      rw [hr] at h
      dsimp only at h
      rw [← Option.some.inj h]
      exact List.mem_cons_self cp rest
    | some c =>
      rw [hr] at h
      dsimp only at h
      split at h
      · rw [← Option.some.inj h]
        exact List.mem_cons_of_mem _ (ih hr)
      · rw [← Option.some.inj h]
        exact List.mem_cons_self cp rest

theorem earliest_min {l : List Checkpoint} {b : Checkpoint} (h : earliest l = some b) :
    ∀ x ∈ l, b.processed_at ≤ x.processed_at := by
  induction l generalizing b with
  | nil => exact Option.noConfusion h
  | cons cp rest ih =>
    rw [earliest_cons] at h
    intro x hx
    rcases List.mem_cons.mp hx with rfl | hx2
    · cases hr : earliest rest with
      | none =>
        rw [hr] at h
        dsimp only at h
        rw [← Option.some.inj h]
      | some c =>
        rw [hr] at h
        dsimp only at h
        split at h
        next hlt =>
          rw [← Option.some.inj h]
          omega
        next hge =>
          rw [← Option.some.inj h]
    · cases hr : earliest rest with
      | none =>
        have hnil : rest = [] := earliest_eq_none.mp hr
        subst hnil
        exact absurd hx2 (by simp)
      | some c =>
        rw [hr] at h
        dsimp only at h
        split at h
        next hlt =>
          rw [← Option.some.inj h]
          exact ih hr x hx2
        next hge =>
          rw [← Option.some.inj h]
          have h1 := ih hr x hx2
          omega

/-- Claim C9: for a thread id, `get_thread_ticket` returns the ticket number
of the checkpoint with the earliest `processed_at` among the thread's
checkpoints carrying a non-null ticket number, and none exactly when no such
checkpoint exists; a conversation therefore maps to at most one ticket, the
earliest-processed one. -/
theorem get_thread_ticket_earliest (st : AgentState) (tid : String)
    (htid : tid ≠ "")
    (hne : ∀ cp ∈ st.checkpoints, cp.ticket_number ≠ some "") :
    (∀ t, get_thread_ticket st tid = some t →
      ∃ cp ∈ st.checkpoints, cp.thread_id = tid ∧ cp.ticket_number = some t ∧
        ∀ cp2 ∈ st.checkpoints, cp2.thread_id = tid → cp2.ticket_number ≠ none →
          cp.processed_at ≤ cp2.processed_at) ∧
    (get_thread_ticket st tid = none ↔
      ∀ cp ∈ st.checkpoints, cp.thread_id = tid → cp.ticket_number = none) := by
  set rows := st.checkpoints.filter
      (fun cp => cp.thread_id == tid && cp.ticket_number.isSome) with hrows
  have hmem : ∀ cp, cp ∈ rows ↔
      cp ∈ st.checkpoints ∧ cp.thread_id = tid ∧ cp.ticket_number.isSome = true := by
    intro cp
    rw [hrows, List.mem_filter]
    simp [and_assoc]
  constructor
  · intro t ht
    unfold get_thread_ticket at ht
    rw [if_neg htid, ← hrows] at ht
    cases he : earliest rows with
    | none => rw [he] at ht; simp at ht
    | some cp =>
      rw [he] at ht
      dsimp only at ht
      have hcp := (hmem cp).mp (earliest_mem he)
      cases hct : cp.ticket_number with
      | none => rw [hct] at ht; simp at ht
      | some t2 =>
        rw [hct] at ht
        dsimp only at ht
        by_cases h2 : t2 = ""
        · rw [if_pos h2] at ht; simp at ht
        · rw [if_neg h2] at ht
          simp only [Option.some.injEq] at ht
          subst ht
          refine ⟨cp, hcp.1, hcp.2.1, hct, ?_⟩
          intro cp2 hcp2 htid2 htk2
          refine earliest_min he cp2 ((hmem cp2).mpr ⟨hcp2, htid2, ?_⟩)
          cases h3 : cp2.ticket_number with
          | none => exact absurd h3 htk2
          | some t3 => simp
  · unfold get_thread_ticket
    rw [if_neg htid, ← hrows]
    constructor
    · intro hg cp hcp htid2
      by_contra htk
      have hrow : cp ∈ rows := by
        refine (hmem cp).mpr ⟨hcp, htid2, ?_⟩
        cases h2 : cp.ticket_number with
        | none => exact absurd h2 htk
        | some t2 => simp
      cases he : earliest rows with
      | none =>
        rw [earliest_eq_none] at he
        rw [he] at hrow
        simp at hrow
      | some b =>
        rw [he] at hg
        dsimp only at hg
        have hb := (hmem b).mp (earliest_mem he)
        cases h2 : b.ticket_number with
        | none =>
          rw [h2] at hb
          simp at hb
        | some t2 =>
          rw [h2] at hg
          dsimp only at hg
          have ht2 : t2 ≠ "" := fun habs => hne b hb.1 (habs ▸ h2)
          rw [if_neg ht2] at hg
          simp at hg
    · intro hall
      have hnil : rows = [] := by
        rw [hrows, List.filter_eq_nil_iff]
        intro cp hcp
        simp only [Bool.and_eq_true, beq_iff_eq, Bool.not_eq_true, not_and]
        intro hthread
        rw [hall cp hcp hthread]
        simp
      rw [hnil]
      simp [earliest]

/-- Witness for claim C9 at a concrete input. -/
theorem get_thread_ticket_earliest_witness :
    ∃ cp ∈ st1cp.checkpoints, cp.thread_id = "th" ∧ cp.ticket_number = some "T0" ∧
      ∀ cp2 ∈ st1cp.checkpoints, cp2.thread_id = "th" → cp2.ticket_number ≠ none →
        cp.processed_at ≤ cp2.processed_at :=
  (get_thread_ticket_earliest st1cp "th" (by decide) (by decide)).1 "T0" (by decide)

example : match_skills ["network"] "network, vpn" = 70 := by decide

example : match_skills ["network"] "network" = 70 := by decide

example : match_skills ["Cloud", "Email", "Office 365"] "email support" = 23 := by decide

example : semantic_match_score "alpha" "alpha beta gamma delta epsilon zeta eta" [] = 8 := by
  decide

theorem data_ne_nil {s : String} (h : s ≠ "") : s.data ≠ [] := by
  intro hd
  apply h
  cases s with
  | mk d =>
    simp only at hd
    rw [hd]

theorem strContains_lower_empty {k : String} (hk : k ≠ "") :
    strContains (lowerStr "") (lowerStr k) = false := by
  show containsSub [] (k.data.map Char.toLower) = false
  unfold containsSub
  cases hd : k.data with
  | nil => exact absurd hd (data_ne_nil hk)
  | cons c rest => rfl

theorem keywordExact_empty_skills {k : String} (hk : k ≠ "") :
    keywordExact (lowerStr "") k = false :=
  strContains_lower_empty hk

theorem keywordNear_empty_skills (k : String) :
    keywordNear (lowerStr "") k = false := by
  unfold keywordNear
  rw [List.any_eq_false]
  intro w hw
  simp only [Bool.and_eq_true, decide_eq_true_eq, not_and]
  intro hlen
  show ¬ containsSub (lowerStr "").data w.data = true
  cases hd : w.data with
  | nil =>
    exfalso
    have : w.length = 0 := by rw [String.length, hd]; rfl
    omega
  | cons c rest =>
    show ¬ containsSub [] (c :: rest) = true
    unfold containsSub
    simp

/-- Per-keyword contribution sum written out equals the two filtered counts
used by `_match_skills`. -/
theorem contribution_sum (l : List String) (sl : String) :
    (l.map (fun k => if keywordExact sl k then (70 : Nat)
        else if keywordNear sl k then 30 else 0)).sum
      = (l.filter (fun k => keywordExact sl k)).length * 70
        + (l.filter (fun k => !keywordExact sl k && keywordNear sl k)).length * 30 := by
  induction l with
  | nil => simp
  | cons a rest ih =>
    simp only [List.map_cons, List.sum_cons, List.filter_cons, ih]
    by_cases h1 : keywordExact sl a = true
    · simp [h1]
      ring
    · rw [Bool.not_eq_true] at h1
      by_cases h2 : keywordNear sl a = true
      · simp [h1, h2]
        ring
      · rw [Bool.not_eq_true] at h2
        simp [h1, h2]

/-- The exact and near counts together never exceed the keyword count. -/
theorem filter_near_disjoint_length (l : List String) (p q : String → Bool) :
    (l.filter p).length + (l.filter (fun k => !p k && q k)).length ≤ l.length := by
  induction l with
  | nil => simp
  | cons a rest ih =>
    simp only [List.filter_cons]
    by_cases h1 : p a = true
    · simp [h1]
      omega
    · rw [Bool.not_eq_true] at h1
      by_cases h2 : q a = true
      · simp [h1, h2]
        omega
      · simp [h1, h2]
        omega

/-- Counterexample to claim C5: with three required keywords and exactly one
exact match, the code's score is the integer-truncated 23 while the claimed
sum of per-keyword contributions is 70/3, so the claimed equality fails. -/
theorem primary_score_counterexample :
    match_skills ["aaaa", "bbbb", "cccc"] "aaaa" = 23 ∧
    ((["aaaa", "bbbb", "cccc"].map
        (claimedContribution 3 (lowerStr "aaaa"))).sum = (70 : ℚ) / 3) ∧
    ((match_skills ["aaaa", "bbbb", "cccc"] "aaaa" : ℚ)
      ≠ (["aaaa", "bbbb", "cccc"].map (claimedContribution 3 (lowerStr "aaaa"))).sum) := by
  have he1 : keywordExact (lowerStr "aaaa") "aaaa" = true := by decide
  have he2 : keywordExact (lowerStr "aaaa") "bbbb" = false := by decide
  have he3 : keywordExact (lowerStr "aaaa") "cccc" = false := by decide
  have hn2 : keywordNear (lowerStr "aaaa") "bbbb" = false := by decide
  have hn3 : keywordNear (lowerStr "aaaa") "cccc" = false := by decide
  have hms : match_skills ["aaaa", "bbbb", "cccc"] "aaaa" = 23 := by decide
  have hsum : (["aaaa", "bbbb", "cccc"].map
      (claimedContribution 3 (lowerStr "aaaa"))).sum = (70 : ℚ) / 3 := by
    simp [claimedContribution, he1, he2, he3, hn2, hn3]
  refine ⟨hms, hsum, ?_⟩
  rw [hms, hsum]
  norm_num

/-- Claim C5 (amended): for a non-empty list of non-empty required keywords,
the primary score equals the per-keyword point sum (70 for an exact
case-insensitive substring match, else 30 for a length->3 word near match, at
most one credit per keyword) divided by the keyword count with integer
truncation; the score lies in 0-100; and the primary pass retains exactly the
candidates whose score is strictly greater than 30. -/
theorem primary_score_spec (required_skills : List String) (tech_skills : String)
    (technicians : List Tech)
    (hreq : required_skills ≠ [])
    (hk : ∀ k ∈ required_skills, k ≠ "") :
    match_skills required_skills tech_skills
      = (required_skills.map
          (fun k => if keywordExact (lowerStr tech_skills) k then (70 : Nat)
            else if keywordNear (lowerStr tech_skills) k then 30 else 0)).sum
        / required_skills.length ∧
    match_skills required_skills tech_skills ≤ 100 ∧
    score_technicians technicians required_skills
      = (technicians.filter
          (fun t => decide (30 < match_skills required_skills t.skills))).map
        (fun t => mkScored t (match_skills required_skills t.skills)) := by
  have hlen : 0 < required_skills.length := List.length_pos.mpr hreq
  have hcount := filter_near_disjoint_length required_skills
    (fun k => keywordExact (lowerStr tech_skills) k)
    (fun k => keywordNear (lowerStr tech_skills) k)
  refine ⟨?_, ?_, ?_⟩
  · by_cases hts : tech_skills = ""
    · subst hts
      have hz : (required_skills.map
          (fun k => if keywordExact (lowerStr "") k then (70 : Nat)
            else if keywordNear (lowerStr "") k then 30 else 0)).sum = 0 := by
        apply List.sum_eq_zero
        intro x hx
        rcases List.mem_map.mp hx with ⟨k, hkmem, rfl⟩
        rw [keywordExact_empty_skills (hk k hkmem), keywordNear_empty_skills k]
        rfl
      rw [hz]
      unfold match_skills
      rw [if_pos (Or.inr rfl)]
      simp
    · unfold match_skills
      rw [if_neg (by simp [hreq, hts])]
      rw [contribution_sum]
  · by_cases hts : tech_skills = ""
    · subst hts
      unfold match_skills
      rw [if_pos (Or.inr rfl)]
      omega
    · unfold match_skills
      rw [if_neg (by simp [hreq, hts])]
      have hle : (required_skills.filter
            (fun k => keywordExact (lowerStr tech_skills) k)).length * 70
          + (required_skills.filter
            (fun k => !keywordExact (lowerStr tech_skills) k
              && keywordNear (lowerStr tech_skills) k)).length * 30
          ≤ required_skills.length * 70 := by omega
      calc ((required_skills.filter
            (fun k => keywordExact (lowerStr tech_skills) k)).length * 70
          + (required_skills.filter
            (fun k => !keywordExact (lowerStr tech_skills) k
              && keywordNear (lowerStr tech_skills) k)).length * 30)
            / required_skills.length
          ≤ required_skills.length * 70 / required_skills.length :=
            Nat.div_le_div_right hle
        _ = 70 := by
            rw [Nat.mul_comm, Nat.mul_div_cancel _ hlen]
        _ ≤ 100 := by omega
  · induction technicians with
    | nil => rfl
    | cons t rest ih =>
      unfold score_technicians
      rw [List.filter_cons]
      by_cases h : 30 < match_skills required_skills t.skills
      · rw [if_pos h, ih]
        simp [h]
      · rw [if_neg h, ih]
        simp [h]

/-- Witness for the amended claim C5 at a concrete input. -/
theorem primary_score_spec_witness :
    match_skills ["network"] "network, vpn" ≤ 100 :=
  (primary_score_spec ["network"] "network, vpn" [] (by decide) (by decide)).2.1

/-- Claim C6: selection sorts the surviving candidates by score descending
then `current_workload` ascending and picks the first, so the selected
candidate beats everyone on score and has minimal workload among score ties;
in the spec's scenario responders A ("network, vpn", workload 2) and B
("network", workload 0) with required keywords ["network"] both score 70 and
B is chosen. -/
theorem selection_workload_tiebreak (scored : List ScoredEntry)
    (best : ScoredEntry) (rest : List ScoredEntry)
    (h : sortScored scored = best :: rest) :
    (best ∈ scored ∧
      (∀ c ∈ scored, c.score ≤ best.score) ∧
      (∀ c ∈ scored, c.score = best.score → best.workload ≤ c.workload)) ∧
    (match_skills ["network"] techA.skills = 70 ∧
      match_skills ["network"] techB.skills = 70 ∧
      assign_ticket [techA, techB] "t" ["network"] = some "B") := by
  have hperm : List.Perm (sortScored scored) scored := List.perm_insertionSort _ _
  have hsorted : List.Sorted scoreOrder (sortScored scored) :=
    List.sorted_insertionSort scoreOrder scored
  rw [h] at hperm hsorted
  have hrest := (List.sorted_cons.mp hsorted).1
  constructor
  · refine ⟨hperm.mem_iff.mp (List.mem_cons_self _ _), ?_, ?_⟩
    · intro c hc
      rcases List.mem_cons.mp (hperm.symm.mem_iff.mp hc) with rfl | hcr
      · exact Nat.le_refl _
      · have hbc := hrest c hcr
        unfold scoreOrder at hbc
        omega
    · intro c hc hceq
      rcases List.mem_cons.mp (hperm.symm.mem_iff.mp hc) with rfl | hcr
      · exact Nat.le_refl _
      · have hbc := hrest c hcr
        unfold scoreOrder at hbc
        omega
  · exact ⟨by decide, by decide, by decide⟩

/-- Witness for claim C6 at a concrete input. -/
theorem selection_workload_tiebreak_witness :
    assign_ticket [techA, techB] "t" ["network"] = some "B" :=
  (selection_workload_tiebreak [⟨"B", "B", 70, 0⟩, ⟨"A", "A", 70, 2⟩]
    ⟨"B", "B", 70, 0⟩ [⟨"A", "A", 70, 2⟩] (by decide)).2.2.2

theorem sortScored_length (l : List ScoredEntry) : (sortScored l).length = l.length :=
  (List.perm_insertionSort scoreOrder l).length_eq

theorem mem_sortScored {x : ScoredEntry} {l : List ScoredEntry} :
    x ∈ sortScored l ↔ x ∈ l :=
  (List.perm_insertionSort scoreOrder l).mem_iff

theorem sortScored_ne_nil {l : List ScoredEntry} (h : l ≠ []) : sortScored l ≠ [] := by
  intro h0
  apply h
  apply List.length_eq_zero.mp
  rw [← sortScored_length l, h0, List.length_nil]

theorem rerank_ne_nil {technicians : List Tech} (h : technicians ≠ [])
    (ticket_text : String) (required_skills : List String) :
    rerank_technicians technicians ticket_text required_skills ≠ [] := by
  unfold rerank_technicians
  intro htake
  have hlen := congrArg List.length htake
  rw [List.length_take, List.length_nil, sortScored_length, List.length_map] at hlen
  have hpos : 0 < technicians.length := List.length_pos.mpr h
  omega

/-- Whenever the availability pool is non-empty, `assign_ticket` returns some
responder id. -/
theorem assign_returns_some (technicians : List Tech) (ticket_text : String)
    (required_skills : List String)
    (havail : get_available_technicians technicians ≠ []) :
    ∃ id, assign_ticket technicians ticket_text required_skills = some id := by
  unfold assign_ticket
  dsimp only
  rw [if_neg havail]
  have hscored : (if score_technicians (get_available_technicians technicians)
        required_skills = [] then
      rerank_technicians (get_available_technicians technicians) ticket_text required_skills
    else score_technicians (get_available_technicians technicians) required_skills) ≠ [] := by
    split
    next => exact rerank_ne_nil havail ticket_text required_skills
    next hne => exact hne
  rw [if_neg hscored]
  cases hs : sortScored (if score_technicians (get_available_technicians technicians)
        required_skills = [] then
      rerank_technicians (get_available_technicians technicians) ticket_text required_skills
    else score_technicians (get_available_technicians technicians) required_skills) with
  | nil => exact absurd hs (sortScored_ne_nil hscored)
  | cons best others => exact ⟨best.tech_id, rfl⟩

/-- Claim C8: `assign_ticket` returns no responder exactly when the pool of
responders with availability in {available, wfh} is empty; whenever at least
one such responder exists a responder id is returned, even with zero required
keywords or no candidate above the primary threshold. -/
theorem fallback_completeness (technicians : List Tech) (ticket_text : String)
    (required_skills : List String) :
    assign_ticket technicians ticket_text required_skills = none ↔
      technicians.filter (fun t => availableStatus t.status) = [] := by
  have hlen : (get_available_technicians technicians).length
      = (technicians.filter (fun t => availableStatus t.status)).length :=
    (List.perm_insertionSort workloadOrder _).length_eq
  constructor
  · intro hnone
    by_contra hfil
    have havail : get_available_technicians technicians ≠ [] := by
      intro h0
      apply hfil
      apply List.length_eq_zero.mp
      rw [← hlen, h0, List.length_nil]
    obtain ⟨id, hid⟩ := assign_returns_some technicians ticket_text required_skills havail
    rw [hid] at hnone
    exact Option.noConfusion hnone
  · intro hfil
    have havail : get_available_technicians technicians = [] := by
      apply List.length_eq_zero.mp
      rw [hlen, hfil, List.length_nil]
    unfold assign_ticket
    dsimp only
    rw [if_pos havail]

/-- Counterexample to claim C7: with a skill text of seven distinct words, a
one-word overlapping ticket text and no required keywords, the code's score
is the integer-truncated `int(60/7) = 8`, while the claim's
`round((1/7)*60) = 9`. -/
theorem fallback_round_counterexample :
    semantic_match_score "alpha" "alpha beta gamma delta epsilon zeta eta" [] = 8 ∧
    round ((1 * 60 : ℚ) / 7) = (9 : ℤ) ∧
    ((semantic_match_score "alpha" "alpha beta gamma delta epsilon zeta eta" [] : ℤ)
      ≠ round ((1 * 60 : ℚ) / 7)) := by
  have h1 : semantic_match_score "alpha" "alpha beta gamma delta epsilon zeta eta" [] = 8 := by
    decide
  have h2 : round ((1 * 60 : ℚ) / 7) = (9 : ℤ) := by
    rw [round_eq]
    rw [show ((1 * 60 : ℚ) / 7 + 1 / 2) = 127 / 14 by norm_num]
    exact Int.floor_eq_iff.mpr (by norm_num)
  refine ⟨h1, h2, ?_⟩
  rw [h1, h2]
  norm_num

/-- The source's `_semantic_match_score` (with its empty-skill-text early
return and its `or 1` divisor guard) agrees with the claimed formula whenever
every required keyword is non-empty. -/
theorem semantic_eq_claimed (ticket_text tech_skills : String)
    (required_skills : List String)
    (hk : ∀ k ∈ required_skills, k ≠ "") :
    semantic_match_score ticket_text tech_skills required_skills
      = fallback_score_claimed ticket_text tech_skills required_skills := by
  by_cases hts : tech_skills = ""
  · subst hts
    unfold semantic_match_score fallback_score_claimed
    rw [if_pos rfl]
    have hws : wordSet (lowerStr "") = [] := rfl
    have hboost : (required_skills.filter
        (fun k => strContains (lowerStr "") (lowerStr k))).length = 0 := by
      rw [List.length_eq_zero, List.filter_eq_nil_iff]
      intro k hkm
      rw [strContains_lower_empty (hk k hkm)]
      simp
    simp [hws, hboost]
  · unfold semantic_match_score fallback_score_claimed
    rw [if_neg hts]
    dsimp only
    by_cases ho : 0 < ((wordSet (lowerStr tech_skills)).filter
        (fun w => (wordSet (lowerStr ticket_text)).contains w)).length
    · have hnonnil : ¬ wordSet (lowerStr tech_skills) = [] := by
        intro h0
        rw [h0] at ho
        simp at ho
      rw [if_pos ho, if_pos ho, if_neg hnonnil]
    · rw [if_neg ho, if_neg ho]

/-- Claim C7 (amended): in the fallback rerank every available candidate's
score is base + boost clamped to 100, where base is the integer-truncated
`(overlap * 60) / |skill word set|` when the stopword-filtered overlap is
nonzero and 20 otherwise, and boost adds a flat 10 per required keyword
occurring as a substring of the skill text; only the top 5 candidates by this
score are kept. -/
theorem fallback_rerank_spec (technicians : List Tech) (ticket_text : String)
    (required_skills : List String)
    (hk : ∀ k ∈ required_skills, k ≠ "") :
    (∀ t ∈ technicians,
      semantic_match_score ticket_text t.skills required_skills
        = fallback_score_claimed ticket_text t.skills required_skills) ∧
    (rerank_technicians technicians ticket_text required_skills).length
      = min 5 technicians.length ∧
    (∀ c ∈ rerank_technicians technicians ticket_text required_skills,
      ∃ t ∈ technicians,
        c = mkScored t (semantic_match_score ticket_text t.skills required_skills)) ∧
    (∀ c ∈ rerank_technicians technicians ticket_text required_skills,
      ∀ t ∈ technicians,
        c.score < semantic_match_score ticket_text t.skills required_skills →
          mkScored t (semantic_match_score ticket_text t.skills required_skills)
            ∈ rerank_technicians technicians ticket_text required_skills) := by
  have hr : rerank_technicians technicians ticket_text required_skills
      = (sortScored (technicians.map
          (fun t => mkScored t (semantic_match_score ticket_text t.skills
            required_skills)))).take 5 := rfl
  refine ⟨fun t _ => semantic_eq_claimed ticket_text t.skills required_skills hk, ?_, ?_, ?_⟩
  · rw [hr, List.length_take, sortScored_length, List.length_map]
  · intro c hc
    rw [hr] at hc
    have hc2 := List.mem_of_mem_take hc
    rw [mem_sortScored] at hc2
    rcases List.mem_map.mp hc2 with ⟨t, ht, hteq⟩
    exact ⟨t, ht, hteq.symm⟩
  · intro c hc t ht hlt
    have hm : mkScored t (semantic_match_score ticket_text t.skills required_skills)
        ∈ sortScored (technicians.map
          (fun t => mkScored t (semantic_match_score ticket_text t.skills
            required_skills))) := by
      rw [mem_sortScored]
      exact List.mem_map_of_mem _ ht
    have hsorted : List.Sorted scoreOrder (sortScored (technicians.map
        (fun t => mkScored t (semantic_match_score ticket_text t.skills
          required_skills)))) :=
      List.sorted_insertionSort scoreOrder _
    rw [← List.take_append_drop 5 (sortScored (technicians.map
        (fun t => mkScored t (semantic_match_score ticket_text t.skills
          required_skills))))] at hsorted hm
    rcases List.mem_append.mp hm with htake | hdrop
    · rw [hr]
      exact htake
    · exfalso
      have hpw := (List.pairwise_append.mp hsorted).2.2
      have hcm := hpw c (by rw [hr] at hc; exact hc) _ hdrop
      unfold scoreOrder at hcm
      simp only [mkScored] at hcm
      omega

/-- Witness for the amended claim C7 at a concrete input. -/
theorem fallback_rerank_spec_witness :
    (rerank_technicians [techA] "t" ["network"]).length = min 5 [techA].length :=
  (fallback_rerank_spec [techA] "t" ["network"] (by decide)).2.1

end EasyMyTicket
